import Mathlib

/-!
Verification of the chain-validation core (cpp/log/cert_checker.cc) and the
storage write contract (cpp/log/database.h) of a certificate-transparency log.

The external Cert / CertChain / TbsCertificate capability set is represented
by oracle data: each capability call outcome is a field of the certificate or
chain record, or a function parameter, so theorems quantify over all possible
capability behaviours. Capability operations whose behaviour the checker
depends on but whose code lives outside the given sources are modelled from
the specification and marked as such in their doc comments.
-/

/-- The outcome type of the external certificate capability calls
(Cert::Status in the source): determined true, determined false, could not
determine, or an unsupported algorithm was encountered. -/
inductive CStatus where
  | TRUE
  | FALSE
  | ERROR
  | UNSUPPORTED_ALGORITHM
deriving DecidableEq

/-- CertChecker::CertVerifyResult from cert_checker.h, as used by
cert_checker.cc. -/
inductive CertVerifyResult where
  | OK
  | INVALID_CERTIFICATE_CHAIN
  | PRECERT_EXTENSION_IN_CERT_CHAIN
  | UNSUPPORTED_ALGORITHM_IN_CERT_CHAIN
  | PRECERT_CHAIN_NOT_WELL_FORMED
  | ROOT_NOT_IN_LOCAL_STORE
  | INTERNAL_ERROR
deriving DecidableEq

/-- The canonical error codes of util::Status used by cert_checker.cc. -/
inductive ErrorCode where
  | OK
  | INVALID_ARGUMENT
  | FAILED_PRECONDITION
  | INTERNAL
deriving DecidableEq

/-- util::Status: an error code together with a message string. -/
structure UtilStatus where
  code : ErrorCode
  msg : String
deriving DecidableEq

/-- util::Status::OK. -/
def statusOK : UtilStatus := ⟨ErrorCode.OK, ""⟩

/-- The data of a to-be-signed certificate view: loadedness, the list of
extension ids present, the issuer field, and the remaining content. -/
structure TbsData where
  loaded : Bool
  extensions : List Nat
  issuer : String
  body : String
deriving DecidableEq

/-- A certificate, as the checker observes it through the external capability
set: its raw bytes, loadedness, and the outcomes of the capability calls the
checker makes on it (DerEncodedSubjectName, DerEncodedIssuerName,
SPKISha256Digest, HasCriticalExtension for the poison id), plus its TBS view. -/
structure Cert where
  bytes : String
  loaded : Bool
  subjectName : CStatus × String
  issuerName : CStatus × String
  spki : CStatus × String
  hasPoison : CStatus
  tbs : TbsData
deriving DecidableEq

/-- A placeholder certificate used as the default of total list accessors;
the source never reaches these accesses out of range. -/
def defaultCert : Cert :=
  ⟨"", false, (CStatus.ERROR, ""), (CStatus.ERROR, ""), (CStatus.ERROR, ""),
   CStatus.ERROR, ⟨false, [], "", ""⟩⟩

/-- Modelled from the spec: Cert::IsIdenticalTo of the external Cert
capability (log/cert.h, outside the given sources), described by the spec as
byte-identical comparison. -/
def isIdenticalTo (a b : Cert) : Bool := a.bytes == b.bytes

/-- The trusted store: std::multimap from subject name to certificate,
represented as a list in insertion order; the equal range of a key is the
sublist of entries with that key, in insertion order. -/
abbrev TrustStore := List (String × Cert)

/-- CertChecker::IsTrusted (cert_checker.cc lines 359 to 382): classify a
certificate against the trusted store. The subject name out parameter is
assigned only once the name computation has succeeded; it is none when the
source leaves the out parameter untouched. -/
def IsTrusted (trusted : TrustStore) (cert : Cert) : CertVerifyResult × Option String :=
  match cert.subjectName with
  | (CStatus.ERROR, _) => (CertVerifyResult.INTERNAL_ERROR, none)
  | (CStatus.TRUE, name) =>
      if (trusted.filter (fun p => p.1 == name)).any (fun p => isIdenticalTo cert p.2) then
        (CertVerifyResult.OK, some name)
      else
        (CertVerifyResult.ROOT_NOT_IN_LOCAL_STORE, some name)
  | (_, _) => (CertVerifyResult.INVALID_CERTIFICATE_CHAIN, none)

/-- One read of the PEM source: either a successfully parsed certificate or a
badly encoded entry; the end of the list is a clean end of input. -/
inductive PemItem where
  | cert (c : Cert)
  | garbage
deriving DecidableEq

/-- The reading loop of CertChecker::LoadTrustedCertificatesFromBIO
(cert_checker.cc lines 100 to 132): returns the error flag, the count of
successfully parsed certificates, and the staged entries in parse order. -/
def loadLoop (trusted : TrustStore) : List PemItem → Bool × Nat × List (String × Cert)
  | [] => (false, 0, [])
  | PemItem.garbage :: _ => (true, 0, [])
  | PemItem.cert c :: rest =>
      let r := IsTrusted trusted c
      if r.1 ≠ CertVerifyResult.OK ∧ r.1 ≠ CertVerifyResult.ROOT_NOT_IN_LOCAL_STORE then
        (true, 0, [])
      else
        let t := loadLoop trusted rest
        (t.1, t.2.1 + 1,
          (if r.1 ≠ CertVerifyResult.OK then [((r.2).getD "", c)] else []) ++ t.2.2)

/-- CertChecker::LoadTrustedCertificatesFromBIO (cert_checker.cc lines 92 to
151): rejects the whole batch on a parse or classification error or when no
certificate parsed; otherwise inserts the staged entries, popped from the back
of the staging vector, into the multimap. -/
def loadTrustedCertificates (trusted : TrustStore) (items : List PemItem) :
    Bool × TrustStore :=
  let r := loadLoop trusted items
  if r.1 = true ∨ r.2.1 = 0 then (false, trusted)
  else (true, trusted ++ r.2.2.reverse)

/-- A certificate chain, leaf first, together with the outcomes of the
chain-level capability calls the checker makes on it:
RemoveCertsAfterFirstSelfSigned (status and resulting certificate list),
IsValidCaIssuerChainMaybeLegacyRoot, IsValidSignatureChain, IsWellFormed and
UsesPrecertSigningCertificate. -/
structure CertChain where
  loaded : Bool
  certs : List Cert
  trimStatus : CStatus
  trimmedCerts : List Cert
  caIssuerStatus : CStatus
  sigChainStatus : CStatus
  wellFormed : CStatus
  usesPreIssuer : CStatus
deriving DecidableEq

/-- Modelled from the spec: Cert::Clone of the external capability, producing
a copy of the certificate. -/
def cloneCert (c : Cert) : Cert := c

/-- Modelled from the spec: CertChain::AddCert of the external capability; per
the source comment it takes ownership even when the clone failed, failing when
the certificate is not loaded and otherwise appending it to the chain. -/
def addCert (ch : CertChain) (c : Cert) : CStatus × CertChain :=
  if c.loaded then (CStatus.TRUE, {ch with certs := ch.certs ++ [c]})
  else (CStatus.ERROR, ch)

/-- The candidate scan inside CertChecker::GetTrustedCa (cert_checker.cc lines
319 to 343): walk the equal range of the issuer name in insertion order; an
unsupported algorithm or an undetermined signature check aborts the scan with
the corresponding verdict, the first verifying candidate is returned, and an
exhausted range yields no candidate. -/
def scanCandidates (sig : Cert → Cert → CStatus) (subject : Cert) :
    List Cert → Except CertVerifyResult (Option Cert)
  | [] => Except.ok none
  | c :: rest =>
      match sig subject c with
      | CStatus.UNSUPPORTED_ALGORITHM =>
          Except.error CertVerifyResult.UNSUPPORTED_ALGORITHM_IN_CERT_CHAIN
      | CStatus.ERROR => Except.error CertVerifyResult.INTERNAL_ERROR
      | CStatus.TRUE => Except.ok (some c)
      | CStatus.FALSE => scanCandidates sig subject rest

/-- CertChecker::GetTrustedCa (cert_checker.cc lines 286 to 357): resolve a
trust anchor for the last certificate of the chain. The parameter sig is the
outcome of Cert::IsSignedBy on the given pair. Returns the verdict and the
possibly extended chain. -/
def GetTrustedCa (sig : Cert → Cert → CStatus) (trusted : TrustStore)
    (ch : CertChain) : CertVerifyResult × CertChain :=
  match ch.certs.getLast? with
  | none => (CertVerifyResult.INTERNAL_ERROR, ch)
  | some subject =>
    if subject.loaded = false then (CertVerifyResult.INTERNAL_ERROR, ch)
    else if trusted = [] then (CertVerifyResult.ROOT_NOT_IN_LOCAL_STORE, ch)
    else
      let r := IsTrusted trusted subject
      if r.1 ≠ CertVerifyResult.ROOT_NOT_IN_LOCAL_STORE then (r.1, ch)
      else
        let sn := (r.2).getD ""
        match subject.issuerName with
        | (CStatus.ERROR, _) => (CertVerifyResult.INTERNAL_ERROR, ch)
        | (CStatus.TRUE, issuerName) =>
            if sn = issuerName then
              (CertVerifyResult.ROOT_NOT_IN_LOCAL_STORE, ch)
            else
              match scanCandidates sig subject
                  ((trusted.filter (fun p => p.1 == issuerName)).map (fun p => p.2)) with
              | Except.error e => (e, ch)
              | Except.ok none => (CertVerifyResult.ROOT_NOT_IN_LOCAL_STORE, ch)
              | Except.ok (some issuer) =>
                  let a := addCert ch (cloneCert issuer)
                  if a.1 ≠ CStatus.TRUE then (CertVerifyResult.INTERNAL_ERROR, a.2)
                  else (CertVerifyResult.OK, a.2)
        | (_, _) => (CertVerifyResult.INVALID_CERTIFICATE_CHAIN, ch)

/-- GetVerifyError (cert_checker.cc lines 31 to 48): map an internal verdict
to a util::Status. -/
def GetVerifyError : CertVerifyResult → UtilStatus
  | CertVerifyResult.INVALID_CERTIFICATE_CHAIN =>
      ⟨ErrorCode.INVALID_ARGUMENT, "invalid certificate chain"⟩
  | CertVerifyResult.PRECERT_EXTENSION_IN_CERT_CHAIN =>
      ⟨ErrorCode.INVALID_ARGUMENT, "invalid certificate chain"⟩
  | CertVerifyResult.UNSUPPORTED_ALGORITHM_IN_CERT_CHAIN =>
      ⟨ErrorCode.INVALID_ARGUMENT, "invalid certificate chain"⟩
  | CertVerifyResult.PRECERT_CHAIN_NOT_WELL_FORMED =>
      ⟨ErrorCode.INVALID_ARGUMENT, "prechain not well formed"⟩
  | CertVerifyResult.ROOT_NOT_IN_LOCAL_STORE =>
      ⟨ErrorCode.FAILED_PRECONDITION, "unknown root"⟩
  | CertVerifyResult.INTERNAL_ERROR => ⟨ErrorCode.INTERNAL, "internal error"⟩
  | CertVerifyResult.OK => statusOK

/-- CertChecker::CheckIssuerChain (cert_checker.cc lines 177 to 213): trim the
chain at the first self-signed certificate, check the CA-issuer relation and
the signature chain, then resolve the trust anchor. -/
def CheckIssuerChain (sig : Cert → Cert → CStatus) (trusted : TrustStore)
    (ch : CertChain) : UtilStatus × CertChain :=
  if ch.trimStatus ≠ CStatus.TRUE then
    (⟨ErrorCode.INTERNAL, "failed to trim chain"⟩, ch)
  else
    let ch1 := {ch with certs := ch.trimmedCerts}
    if ch1.caIssuerStatus = CStatus.FALSE then
      (⟨ErrorCode.INVALID_ARGUMENT, "invalid certificate chain"⟩, ch1)
    else if ch1.caIssuerStatus ≠ CStatus.TRUE then
      (⟨ErrorCode.INTERNAL, "failed to check issuer chain"⟩, ch1)
    else if ch1.sigChainStatus = CStatus.UNSUPPORTED_ALGORITHM then
      (⟨ErrorCode.INVALID_ARGUMENT, "unsupported algorithm in certificate chain"⟩, ch1)
    else if ch1.sigChainStatus = CStatus.FALSE then
      (⟨ErrorCode.INVALID_ARGUMENT, "invalid certificate chain"⟩, ch1)
    else if ch1.sigChainStatus ≠ CStatus.TRUE then
      (⟨ErrorCode.INTERNAL, "failed to check signature chain"⟩, ch1)
    else
      let r := GetTrustedCa sig trusted ch1
      (GetVerifyError r.1, r.2)

/-- CertChecker::CheckCertChain (cert_checker.cc lines 160 to 175): reject an
unloaded chain, weed out chains whose leaf carries the poison extension, then
delegate to CheckIssuerChain. -/
def CheckCertChain (sig : Cert → Cert → CStatus) (trusted : TrustStore)
    (ch : CertChain) : UtilStatus × CertChain :=
  if ch.loaded = false then
    (⟨ErrorCode.INVALID_ARGUMENT, "invalid certificate chain"⟩, ch)
  else
    let s := (ch.certs.headD defaultCert).hasPoison
    if s ≠ CStatus.TRUE ∧ s ≠ CStatus.FALSE then
      (⟨ErrorCode.INTERNAL, "internal error"⟩, ch)
    else if s = CStatus.TRUE then
      (⟨ErrorCode.INVALID_ARGUMENT, "precert extension in certificate chain"⟩, ch)
    else
      CheckIssuerChain sig trusted ch

/-- The numeric id standing for the poison extension (cert_trans::NID_ctPoison). -/
def NID_ctPoison : Nat := 747

/-- Modelled from the spec: TbsCertificate::DeleteExtension of the external
capability, deleting the extension with the given id; succeeds when present,
is false when absent, fails on an unloaded TBS. -/
def deleteExtension (t : TbsData) (nid : Nat) : CStatus × TbsData :=
  if t.loaded = false then (CStatus.ERROR, t)
  else if nid ∈ t.extensions then
    (CStatus.TRUE, {t with extensions := t.extensions.erase nid})
  else (CStatus.FALSE, t)

/-- Modelled from the spec: TbsCertificate::CopyIssuerFrom of the external
capability, rewriting the issuer field from the given certificate. -/
def copyIssuerFrom (t : TbsData) (c : Cert) : CStatus × TbsData :=
  if c.loaded then (CStatus.TRUE, {t with issuer := c.tbs.issuer})
  else (CStatus.ERROR, t)

/-- Modelled from the spec: TbsCertificate::DerEncoding of the external
capability, a deterministic re-encoding of the TBS data. -/
def derEncodeTbs (t : TbsData) : CStatus × String :=
  if t.loaded then
    (CStatus.TRUE,
     String.intercalate "." (t.extensions.map toString) ++ "|" ++ t.issuer ++ "|" ++ t.body)
  else (CStatus.ERROR, "")

/-- The issuer key hash computation of CertChecker::CheckPreCertChain
(cert_checker.cc lines 252 to 260): the SPKI SHA-256 digest of CertAt 2 when
a precert signing certificate is used (requiring length at least 3), of
CertAt 1 otherwise (requiring length at least 2); none when the length is
insufficient or the digest call fails, which the source turns into the
internal error. -/
def precertKeyHash (ch1 : CertChain) : Option String :=
  if ch1.usesPreIssuer = CStatus.TRUE then
    if ch1.certs.length < 3 ∨ (ch1.certs.getD 2 defaultCert).spki.1 ≠ CStatus.TRUE
    then none
    else some (ch1.certs.getD 2 defaultCert).spki.2
  else
    if ch1.certs.length < 2 ∨ (ch1.certs.getD 1 defaultCert).spki.1 ≠ CStatus.TRUE
    then none
    else some (ch1.certs.getD 1 defaultCert).spki.2

/-- The TBS rebuilding stage of CertChecker::CheckPreCertChain
(cert_checker.cc lines 261 to 279): take the TBS of the precert (the leaf of
the checked chain), delete the poison extension, rewrite the issuer from
CertAt 1 (PrecertIssuingCert, modelled from the spec as the certificate one
above the leaf) exactly when a precert signing certificate is used, and
re-encode to DER; any failure yields the internal status of the source. -/
def buildPrecertTbs (ch1 : CertChain) : Except UtilStatus String :=
  let t0 := (ch1.certs.headD defaultCert).tbs
  let d := deleteExtension t0 NID_ctPoison
  if t0.loaded = false ∨ d.1 ≠ CStatus.TRUE then
    Except.error ⟨ErrorCode.INTERNAL, "internal error"⟩
  else
    let t1 :=
      if ch1.usesPreIssuer = CStatus.TRUE then
        copyIssuerFrom d.2 (ch1.certs.getD 1 defaultCert)
      else (CStatus.TRUE, d.2)
    if t1.1 ≠ CStatus.TRUE then Except.error ⟨ErrorCode.INTERNAL, "internal error"⟩
    else
      let e := derEncodeTbs t1.2
      if e.1 ≠ CStatus.TRUE then
        Except.error ⟨ErrorCode.INTERNAL, "could not DER-encode tbs certificate"⟩
      else Except.ok e.2

/-- CertChecker::CheckPreCertChain (cert_checker.cc lines 215 to 284): check
well-formedness and the issuer chain, compute the issuer key hash from the
right position, and rebuild the TBS without the poison extension, rewriting
its issuer when a precert signing certificate is used. The out parameters are
assigned only on success and are none otherwise. -/
def CheckPreCertChain (sig : Cert → Cert → CStatus) (trusted : TrustStore)
    (ch : CertChain) : UtilStatus × CertChain × Option (String × String) :=
  if ch.loaded = false then
    (⟨ErrorCode.INVALID_ARGUMENT, "invalid certificate chain"⟩, ch, none)
  else if ch.wellFormed = CStatus.FALSE then
    (⟨ErrorCode.INVALID_ARGUMENT, "prechain not well formed"⟩, ch, none)
  else if ch.wellFormed ≠ CStatus.TRUE then
    (⟨ErrorCode.INTERNAL, "internal error"⟩, ch, none)
  else
    let r := CheckIssuerChain sig trusted ch
    if r.1.code ≠ ErrorCode.OK then (r.1, r.2, none)
    else
      let ch1 := r.2
      if ch1.usesPreIssuer ≠ CStatus.TRUE ∧ ch1.usesPreIssuer ≠ CStatus.FALSE then
        (⟨ErrorCode.INTERNAL, "internal error"⟩, ch1, none)
      else
        match precertKeyHash ch1 with
        | none => (⟨ErrorCode.INTERNAL, "internal error"⟩, ch1, none)
        | some keyHash =>
            match buildPrecertTbs ch1 with
            | Except.error s => (s, ch1, none)
            | Except.ok derTbs => (statusOK, ch1, some (keyHash, derTbs))

/-- Database::WriteResult from database.h lines 132 to 145. -/
inductive WriteResult where
  | OK
  | MISSING_CERTIFICATE_HASH
  | DUPLICATE_CERTIFICATE_HASH
  | ENTRY_NOT_FOUND
  | SEQUENCE_NUMBER_ALREADY_IN_USE
  | DUPLICATE_TREE_HEAD_TIMESTAMP
  | MISSING_TREE_HEAD_TIMESTAMP
deriving DecidableEq

/-- ct::SignedTreeHead as the write contract observes it: an optional
timestamp plus the remaining fields. -/
structure SignedTreeHead where
  timestamp : Option Nat
  treeSize : Nat
  rootHash : String
deriving DecidableEq

/-- Database::WriteTreeHead (database.h lines 160 to 164): reject a tree head
without a timestamp, otherwise forward unchanged to the engine hook. -/
def WriteTreeHead (engine : SignedTreeHead → WriteResult)
    (sth : SignedTreeHead) : WriteResult :=
  match sth.timestamp with
  | none => WriteResult.MISSING_TREE_HEAD_TIMESTAMP
  | some _ => engine sth

/-- Modelled from the spec: a reference storage engine for the virtual
WriteTreeHead hook, keyed uniquely by timestamp with no monotonicity
requirement, per the documented contract in database.h. -/
def refTreeHeadEngine (stored : List Nat) (sth : SignedTreeHead) : WriteResult :=
  match sth.timestamp with
  | none => WriteResult.MISSING_TREE_HEAD_TIMESTAMP
  | some t =>
      if t ∈ stored then WriteResult.DUPLICATE_TREE_HEAD_TIMESTAMP
      else WriteResult.OK

/-! ### Helper lemmas about the candidate scan -/

lemma scanCandidates_skip (sig : Cert → Cert → CStatus) (subject : Cert)
    (front l : List Cert) (h : ∀ x ∈ front, sig subject x = CStatus.FALSE) :
    scanCandidates sig subject (front ++ l) = scanCandidates sig subject l := by
  induction front with
  | nil => rfl
  | cons a as ih =>
      have ha : sig subject a = CStatus.FALSE := h a (by simp)
      rw [List.cons_append, scanCandidates, ha]
      exact ih (fun x hx => h x (by simp [hx]))

lemma scanCandidates_found (sig : Cert → Cert → CStatus) (subject w : Cert)
    (rest : List Cert) (hw : sig subject w = CStatus.TRUE) :
    scanCandidates sig subject (w :: rest) = Except.ok (some w) := by
  rw [scanCandidates, hw]

lemma scanCandidates_unsupported (sig : Cert → Cert → CStatus) (subject bad : Cert)
    (rest : List Cert) (hb : sig subject bad = CStatus.UNSUPPORTED_ALGORITHM) :
    scanCandidates sig subject (bad :: rest) =
      Except.error CertVerifyResult.UNSUPPORTED_ALGORITHM_IN_CERT_CHAIN := by
  rw [scanCandidates, hb]

lemma scanCandidates_none (sig : Cert → Cert → CStatus) (subject : Cert)
    (l : List Cert) (h : ∀ x ∈ l, sig subject x = CStatus.FALSE) :
    scanCandidates sig subject l = Except.ok none := by
  induction l with
  | nil => rfl
  | cons a as ih =>
      have ha : sig subject a = CStatus.FALSE := h a (by simp)
      rw [scanCandidates, ha]
      exact ih (fun x hx => h x (by simp [hx]))

/-- Reduction of GetTrustedCa to its candidate scan, under the hypotheses that
the last certificate exists and is loaded, is not itself trusted, and is not
self-signed. -/
lemma getTrustedCa_scan (sig : Cert → Cert → CStatus) (trusted : TrustStore)
    (ch : CertChain) (subject : Cert) (sn iname : String)
    (hlast : ch.certs.getLast? = some subject)
    (hsl : subject.loaded = true)
    (hT : trusted ≠ [])
    (hTrust : IsTrusted trusted subject =
      (CertVerifyResult.ROOT_NOT_IN_LOCAL_STORE, some sn))
    (hin : subject.issuerName = (CStatus.TRUE, iname))
    (hne : sn ≠ iname) :
    GetTrustedCa sig trusted ch =
      match scanCandidates sig subject
          ((trusted.filter (fun p => p.1 == iname)).map (fun p => p.2)) with
      | Except.error e => (e, ch)
      | Except.ok none => (CertVerifyResult.ROOT_NOT_IN_LOCAL_STORE, ch)
      | Except.ok (some issuer) =>
          let a := addCert ch (cloneCert issuer)
          if a.1 ≠ CStatus.TRUE then (CertVerifyResult.INTERNAL_ERROR, a.2)
          else (CertVerifyResult.OK, a.2) := by
  rw [GetTrustedCa, hlast]
  simp [hsl, hT, hTrust, hin, hne]

/-! ### Sample data used by the closed witnesses -/

/-- A loaded sample certificate with computable names. -/
def certW : Cert :=
  ⟨"W", true, (CStatus.TRUE, "nW"), (CStatus.TRUE, "iW"), (CStatus.TRUE, "hW"),
   CStatus.FALSE, ⟨true, [], "isW", "bW"⟩⟩

/-- A loaded sample chain holding just certW. -/
def chainW5 : CertChain :=
  ⟨true, [certW], CStatus.TRUE, [certW], CStatus.TRUE, CStatus.TRUE,
   CStatus.TRUE, CStatus.FALSE⟩

/-- A chain with no certificates at all, as the source guards against. -/
def chainEmpty : CertChain :=
  ⟨true, [], CStatus.TRUE, [], CStatus.TRUE, CStatus.TRUE, CStatus.TRUE,
   CStatus.FALSE⟩

/-- A leaf carrying the poison extension. -/
def certPoisonLeaf : Cert :=
  ⟨"P", true, (CStatus.TRUE, "nP"), (CStatus.TRUE, "iP"), (CStatus.TRUE, "hP"),
   CStatus.TRUE, ⟨true, [747], "isP", "bP"⟩⟩

/-- A loaded chain whose leaf carries the poison extension. -/
def chainPoison : CertChain :=
  ⟨true, [certPoisonLeaf], CStatus.TRUE, [certPoisonLeaf], CStatus.TRUE,
   CStatus.TRUE, CStatus.TRUE, CStatus.FALSE⟩

/-! ### C9 -/

/-- C9: WriteTreeHead rejects a tree head with no timestamp with
MISSING_TREE_HEAD_TIMESTAMP without reaching the engine; with a timestamp set
it forwards to the engine unchanged, with no monotonicity check; against the
reference engine a duplicate timestamp fails with
DUPLICATE_TREE_HEAD_TIMESTAMP while any fresh timestamp, even an older one,
is accepted. -/
theorem c9_writeTreeHead_contract :
    (∀ (engine : SignedTreeHead → WriteResult) (sth : SignedTreeHead),
      (sth.timestamp = none →
        WriteTreeHead engine sth = WriteResult.MISSING_TREE_HEAD_TIMESTAMP) ∧
      (∀ t, sth.timestamp = some t → WriteTreeHead engine sth = engine sth)) ∧
    (∀ (stored : List Nat) (sth : SignedTreeHead) (t : Nat),
      sth.timestamp = some t →
      (t ∈ stored →
        WriteTreeHead (refTreeHeadEngine stored) sth =
          WriteResult.DUPLICATE_TREE_HEAD_TIMESTAMP) ∧
      (t ∉ stored →
        WriteTreeHead (refTreeHeadEngine stored) sth = WriteResult.OK)) := by
  constructor
  · intro engine sth
    constructor
    · intro h; simp [WriteTreeHead, h]
    · intro t h; simp [WriteTreeHead, h]
  · intro stored sth t h
    constructor
    · intro hm; simp [WriteTreeHead, refTreeHeadEngine, h, hm]
    · intro hm; simp [WriteTreeHead, refTreeHeadEngine, h, hm]

/-- Witness for C9 at concrete tree heads. -/
theorem c9_witness :
    WriteTreeHead (refTreeHeadEngine [5]) ⟨none, 0, ""⟩ =
      WriteResult.MISSING_TREE_HEAD_TIMESTAMP ∧
    WriteTreeHead (refTreeHeadEngine [5]) ⟨some 5, 1, "r"⟩ =
      WriteResult.DUPLICATE_TREE_HEAD_TIMESTAMP ∧
    WriteTreeHead (refTreeHeadEngine [5]) ⟨some 3, 1, "r"⟩ = WriteResult.OK :=
  ⟨(c9_writeTreeHead_contract.1 (refTreeHeadEngine [5]) ⟨none, 0, ""⟩).1 rfl,
   (c9_writeTreeHead_contract.2 [5] ⟨some 5, 1, "r"⟩ 5 rfl).1 (by decide),
   (c9_writeTreeHead_contract.2 [5] ⟨some 3, 1, "r"⟩ 3 rfl).2 (by decide)⟩

/-! ### C5 -/

/-- C5 counterexample: a chain with no valid last certificate makes
GetTrustedCa return INTERNAL_ERROR even though the trust store is empty, so
the claim does not hold for every chain. -/
theorem c5_counterexample :
    (GetTrustedCa (fun _ _ => CStatus.FALSE) [] chainEmpty).1 =
      CertVerifyResult.INTERNAL_ERROR ∧
    (GetTrustedCa (fun _ _ => CStatus.FALSE) [] chainEmpty).1 ≠
      CertVerifyResult.ROOT_NOT_IN_LOCAL_STORE := by
  constructor
  · rfl
  · decide

/-- C5 (amended): for every chain whose last certificate exists and is
loaded, an empty trust store makes GetTrustedCa return
ROOT_NOT_IN_LOCAL_STORE, not an internal error. -/
theorem c5_empty_store_not_provisioned (sig : Cert → Cert → CStatus)
    (ch : CertChain) (subject : Cert)
    (hlast : ch.certs.getLast? = some subject)
    (hsl : subject.loaded = true) :
    GetTrustedCa sig [] ch = (CertVerifyResult.ROOT_NOT_IN_LOCAL_STORE, ch) := by
  rw [GetTrustedCa, hlast]
  simp [hsl]

/-- Witness for C5 at a concrete loaded chain. -/
theorem c5_witness :
    GetTrustedCa (fun _ _ => CStatus.FALSE) [] chainW5 =
      (CertVerifyResult.ROOT_NOT_IN_LOCAL_STORE, chainW5) :=
  c5_empty_store_not_provisioned (fun _ _ => CStatus.FALSE) chainW5 certW rfl rfl

/-! ### C7 -/

/-- C7: on a loaded chain, when the poison presence check on the leaf is
neither TRUE nor FALSE CheckCertChain returns the internal error; when it is
TRUE it returns the invalid-argument precert-extension verdict, distinct from
the generic invalid-chain message, without running CheckIssuerChain; when it
is FALSE validation proceeds to CheckIssuerChain. -/
theorem c7_checkCertChain_poison (sig : Cert → Cert → CStatus)
    (trusted : TrustStore) (ch : CertChain) (leaf : Cert) (rest : List Cert)
    (hl : ch.loaded = true) (hc : ch.certs = leaf :: rest) :
    ((leaf.hasPoison = CStatus.ERROR ∨
        leaf.hasPoison = CStatus.UNSUPPORTED_ALGORITHM) →
      CheckCertChain sig trusted ch = (⟨ErrorCode.INTERNAL, "internal error"⟩, ch)) ∧
    (leaf.hasPoison = CStatus.TRUE →
      CheckCertChain sig trusted ch =
        (⟨ErrorCode.INVALID_ARGUMENT, "precert extension in certificate chain"⟩, ch)) ∧
    (leaf.hasPoison = CStatus.FALSE →
      CheckCertChain sig trusted ch = CheckIssuerChain sig trusted ch) := by
  refine ⟨?_, ?_, ?_⟩ <;> intro h
  · rcases h with h | h <;> simp [CheckCertChain, hl, hc, h]
  · simp [CheckCertChain, hl, hc, h]
  · simp [CheckCertChain, hl, hc, h]

/-- Witness for C7 at a concrete poisoned chain. -/
theorem c7_witness :
    CheckCertChain (fun _ _ => CStatus.FALSE) [] chainPoison =
      (⟨ErrorCode.INVALID_ARGUMENT, "precert extension in certificate chain"⟩,
       chainPoison) :=
  (c7_checkCertChain_poison (fun _ _ => CStatus.FALSE) [] chainPoison
    certPoisonLeaf [] rfl rfl).2.1 rfl

/-! ### C8 -/

/-- C8: for a certificate whose subject name computes, IsTrusted is OK
exactly when some trusted entry stored under that subject name has the same
bytes, and in every other case it is ROOT_NOT_IN_LOCAL_STORE. -/
theorem c8_isTrusted_byte_identical (trusted : TrustStore) (cert : Cert)
    (name : String) (h : cert.subjectName = (CStatus.TRUE, name)) :
    ((IsTrusted trusted cert).1 = CertVerifyResult.OK ↔
      ∃ p ∈ trusted, p.1 = name ∧ p.2.bytes = cert.bytes) ∧
    ((IsTrusted trusted cert).1 ≠ CertVerifyResult.OK →
      (IsTrusted trusted cert).1 = CertVerifyResult.ROOT_NOT_IN_LOCAL_STORE) := by
  rw [IsTrusted, h]
  dsimp only
  by_cases hb : (trusted.filter (fun p => p.1 == name)).any
      (fun p => isIdenticalTo cert p.2) = true
  · rw [if_pos hb]
    refine ⟨⟨fun _ => ?_, fun _ => rfl⟩, fun hno => absurd rfl hno⟩
    rcases List.any_eq_true.mp hb with ⟨p, hpmem, hpid⟩
    rcases List.mem_filter.mp hpmem with ⟨hpT, hpk⟩
    exact ⟨p, hpT, by simpa using hpk,
      ((by simpa [isIdenticalTo] using hpid) : cert.bytes = p.2.bytes).symm⟩
  · rw [if_neg hb]
    refine ⟨⟨fun hcontra => absurd hcontra (by simp), fun hex => ?_⟩, fun _ => rfl⟩
    rcases hex with ⟨p, hpT, hk, hbytes⟩
    exact absurd (List.any_eq_true.mpr
      ⟨p, List.mem_filter.mpr ⟨hpT, by simpa using hk⟩,
       by simp [isIdenticalTo, hbytes]⟩) hb

/-- Witness for C8 at a concrete store holding the certificate itself. -/
theorem c8_witness :
    (IsTrusted [("nW", certW)] certW).1 = CertVerifyResult.OK :=
  (c8_isTrusted_byte_identical [("nW", certW)] certW "nW" rfl).1.mpr
    ⟨("nW", certW), by simp⟩

/-! ### C6 -/

/-- C6: an unsupported-algorithm verdict from signature checking yields the
invalid-argument unsupported-algorithm classification and never the internal
one, both when IsValidSignatureChain reports it in CheckIssuerChain and when
IsSignedBy reports it for a candidate in the GetTrustedCa scan, where it also
short-circuits the scan over the remaining candidates; GetVerifyError maps
the verdict to INVALID_ARGUMENT. -/
theorem c6_unsupported_algorithm :
    (∀ (sig : Cert → Cert → CStatus) (trusted : TrustStore) (ch : CertChain),
      ch.trimStatus = CStatus.TRUE → ch.caIssuerStatus = CStatus.TRUE →
      ch.sigChainStatus = CStatus.UNSUPPORTED_ALGORITHM →
      CheckIssuerChain sig trusted ch =
        (⟨ErrorCode.INVALID_ARGUMENT, "unsupported algorithm in certificate chain"⟩,
         {ch with certs := ch.trimmedCerts})) ∧
    (∀ (sig : Cert → Cert → CStatus) (trusted : TrustStore) (ch : CertChain)
       (subject bad : Cert) (sn iname : String) (front rest : List Cert),
      ch.certs.getLast? = some subject → subject.loaded = true →
      IsTrusted trusted subject =
        (CertVerifyResult.ROOT_NOT_IN_LOCAL_STORE, some sn) →
      subject.issuerName = (CStatus.TRUE, iname) → sn ≠ iname →
      (trusted.filter (fun p => p.1 == iname)).map (fun p => p.2) =
        front ++ bad :: rest →
      (∀ x ∈ front, sig subject x = CStatus.FALSE) →
      sig subject bad = CStatus.UNSUPPORTED_ALGORITHM →
      GetTrustedCa sig trusted ch =
        (CertVerifyResult.UNSUPPORTED_ALGORITHM_IN_CERT_CHAIN, ch)) ∧
    GetVerifyError CertVerifyResult.UNSUPPORTED_ALGORITHM_IN_CERT_CHAIN =
      ⟨ErrorCode.INVALID_ARGUMENT, "invalid certificate chain"⟩ := by
  refine ⟨?_, ?_, rfl⟩
  · intro sig trusted ch h1 h2 h3
    simp [CheckIssuerChain, h1, h2, h3]
  · intro sig trusted ch subject bad sn iname front rest hlast hsl hTrust hin hne
      hcands hfront hbad
    have hT : trusted ≠ [] := by
      intro he
      subst he
      simp at hcands
    rw [getTrustedCa_scan sig trusted ch subject sn iname hlast hsl hT hTrust hin hne]
    rw [hcands, scanCandidates_skip sig subject front (bad :: rest) hfront,
      scanCandidates_unsupported sig subject bad rest hbad]

/-- A trusted root candidate whose signature check reports an unsupported
algorithm. -/
def certBadAlg : Cert :=
  ⟨"BAD", true, (CStatus.TRUE, "iX"), (CStatus.TRUE, "rX"), (CStatus.TRUE, "hB"),
   CStatus.FALSE, ⟨true, [], "isB", "bB"⟩⟩

/-- A subject certificate issued under the name iX. -/
def certSubX : Cert :=
  ⟨"SX", true, (CStatus.TRUE, "nX"), (CStatus.TRUE, "iX"), (CStatus.TRUE, "hS"),
   CStatus.FALSE, ⟨true, [], "isS", "bS"⟩⟩

/-- A loaded chain ending in certSubX. -/
def chainX : CertChain :=
  ⟨true, [certSubX], CStatus.TRUE, [certSubX], CStatus.TRUE, CStatus.TRUE,
   CStatus.TRUE, CStatus.FALSE⟩

/-- Witness for C6: a concrete chain hitting the unsupported-algorithm
classification at both sites. -/
theorem c6_witness :
    CheckIssuerChain (fun _ _ => CStatus.UNSUPPORTED_ALGORITHM) []
        {chainX with sigChainStatus := CStatus.UNSUPPORTED_ALGORITHM} =
      (⟨ErrorCode.INVALID_ARGUMENT, "unsupported algorithm in certificate chain"⟩,
       {chainX with sigChainStatus := CStatus.UNSUPPORTED_ALGORITHM}) ∧
    GetTrustedCa (fun _ _ => CStatus.UNSUPPORTED_ALGORITHM)
        [("iX", certBadAlg)] chainX =
      (CertVerifyResult.UNSUPPORTED_ALGORITHM_IN_CERT_CHAIN, chainX) :=
  ⟨c6_unsupported_algorithm.1 (fun _ _ => CStatus.UNSUPPORTED_ALGORITHM) []
      {chainX with sigChainStatus := CStatus.UNSUPPORTED_ALGORITHM} rfl rfl rfl,
   c6_unsupported_algorithm.2.1 (fun _ _ => CStatus.UNSUPPORTED_ALGORITHM)
      [("iX", certBadAlg)] chainX certSubX certBadAlg "nX" "iX" [] []
      rfl rfl (by decide) rfl (by decide) (by decide) (by decide) rfl⟩

/-! ### C1 -/

/-- C1: when the last certificate of the chain is not itself a verbatim
trusted entry and not self-signed, GetTrustedCa scans the trusted entries
whose subject name equals its issuer name in insertion order, stops at the
first candidate whose signature relationship verifies, clones that trusted
certificate, appends it to the chain and returns OK; when no candidate
verifies it returns ROOT_NOT_IN_LOCAL_STORE with the chain unchanged. -/
theorem c1_getTrustedCa_first_match (sig : Cert → Cert → CStatus)
    (trusted : TrustStore) (ch : CertChain) (subject : Cert) (sn iname : String)
    (hlast : ch.certs.getLast? = some subject)
    (hsl : subject.loaded = true)
    (hTrust : IsTrusted trusted subject =
      (CertVerifyResult.ROOT_NOT_IN_LOCAL_STORE, some sn))
    (hin : subject.issuerName = (CStatus.TRUE, iname))
    (hne : sn ≠ iname)
    (hload : ∀ p ∈ trusted, p.2.loaded = true) :
    (∀ front w rest,
      (trusted.filter (fun p => p.1 == iname)).map (fun p => p.2) =
        front ++ w :: rest →
      (∀ x ∈ front, sig subject x = CStatus.FALSE) →
      sig subject w = CStatus.TRUE →
      GetTrustedCa sig trusted ch =
        (CertVerifyResult.OK, {ch with certs := ch.certs ++ [cloneCert w]})) ∧
    ((∀ x ∈ (trusted.filter (fun p => p.1 == iname)).map (fun p => p.2),
        sig subject x = CStatus.FALSE) →
      GetTrustedCa sig trusted ch =
        (CertVerifyResult.ROOT_NOT_IN_LOCAL_STORE, ch)) := by
  constructor
  · intro front w rest hcands hfront hw
    have hT : trusted ≠ [] := by
      intro he
      subst he
      simp at hcands
    rw [getTrustedCa_scan sig trusted ch subject sn iname hlast hsl hT hTrust hin hne]
    rw [hcands, scanCandidates_skip sig subject front (w :: rest) hfront,
      scanCandidates_found sig subject w rest hw]
    have hwl : w.loaded = true := by
      have hmem : w ∈ (trusted.filter (fun p => p.1 == iname)).map (fun p => p.2) := by
        rw [hcands]
        simp
      rcases List.mem_map.mp hmem with ⟨p, hp, hpw⟩
      rw [← hpw]
      exact hload p (List.mem_of_mem_filter hp)
    simp [addCert, cloneCert, hwl]
  · intro hall
    by_cases hT : trusted = []
    · subst hT
      rw [GetTrustedCa, hlast]
      simp [hsl]
    · rw [getTrustedCa_scan sig trusted ch subject sn iname hlast hsl hT hTrust hin hne]
      rw [scanCandidates_none sig subject _ hall]

/-- A trusted root under the key iX whose signature check fails. -/
def certRootNo : Cert :=
  ⟨"RN", true, (CStatus.TRUE, "iX"), (CStatus.TRUE, "rX"), (CStatus.TRUE, "hN"),
   CStatus.FALSE, ⟨true, [], "isN", "bN"⟩⟩

/-- A trusted root under the key iX whose signature check verifies. -/
def certRootYes : Cert :=
  ⟨"RY", true, (CStatus.TRUE, "iX"), (CStatus.TRUE, "rX"), (CStatus.TRUE, "hY"),
   CStatus.FALSE, ⟨true, [], "isY", "bY"⟩⟩

/-- The signature oracle of the C1 witness: only certRootYes verifies. -/
def sigC1 : Cert → Cert → CStatus :=
  fun _ c => if c.bytes == "RY" then CStatus.TRUE else CStatus.FALSE

/-- Witness for C1: with two equal-keyed candidates in insertion order, the
scan skips the failing first candidate and appends the verifying second. -/
theorem c1_witness :
    GetTrustedCa sigC1 [("iX", certRootNo), ("iX", certRootYes)] chainX =
      (CertVerifyResult.OK,
       {chainX with certs := chainX.certs ++ [cloneCert certRootYes]}) :=
  (c1_getTrustedCa_first_match sigC1 [("iX", certRootNo), ("iX", certRootYes)]
      chainX certSubX "nX" "iX" rfl rfl (by decide) rfl (by decide)
      (by decide)).1 [certRootNo] certRootYes [] (by decide) (by decide)
      (by decide)

/-! ### Inversion lemmas for CheckPreCertChain -/

lemma precertKeyHash_some_inv (ch1 : CertChain) (kh : String)
    (h : precertKeyHash ch1 = some kh) :
    (ch1.usesPreIssuer = CStatus.TRUE →
      3 ≤ ch1.certs.length ∧ (ch1.certs.getD 2 defaultCert).spki.1 = CStatus.TRUE ∧
      kh = (ch1.certs.getD 2 defaultCert).spki.2) ∧
    (ch1.usesPreIssuer ≠ CStatus.TRUE →
      2 ≤ ch1.certs.length ∧ (ch1.certs.getD 1 defaultCert).spki.1 = CStatus.TRUE ∧
      kh = (ch1.certs.getD 1 defaultCert).spki.2) := by
  unfold precertKeyHash at h
  split_ifs at h with h1 h2 h3
  · push_neg at h2
    injection h with h0
    exact ⟨fun _ => ⟨by omega, h2.2, h0.symm⟩, fun hn => absurd h1 hn⟩
  · push_neg at h3
    injection h with h0
    exact ⟨fun ht => absurd ht h1, fun _ => ⟨by omega, h3.2, h0.symm⟩⟩

lemma checkPreCertChain_ok_inv (sig : Cert → Cert → CStatus)
    (trusted : TrustStore) (ch ch1 : CertChain) (kh tbs : String)
    (h : CheckPreCertChain sig trusted ch = (statusOK, ch1, some (kh, tbs))) :
    (CheckIssuerChain sig trusted ch).2 = ch1 ∧
    precertKeyHash ch1 = some kh ∧
    buildPrecertTbs ch1 = Except.ok tbs := by
  simp only [CheckPreCertChain] at h
  split_ifs at h with h1 h2 h3 h4 h5
  · exact absurd h (by simp)
  · exact absurd h (by simp)
  · exact absurd h (by simp)
  · exact absurd h (by simp)
  · exact absurd h (by simp)
  · rcases hkh : precertKeyHash (CheckIssuerChain sig trusted ch).2 with _ | kh2
    · rw [hkh] at h
      exact absurd h (by simp)
    · rw [hkh] at h
      rcases htbs : buildPrecertTbs (CheckIssuerChain sig trusted ch).2 with s | der
      · rw [htbs] at h
        exact absurd h (by simp)
      · rw [htbs] at h
        simp only [Prod.mk.injEq, Option.some.injEq] at h
        obtain ⟨-, hch, hkh2, hder⟩ := h
        subst hch
        exact ⟨rfl, by rw [hkh, hkh2], by rw [htbs, hder]⟩

lemma deleteExtension_issuer (t : TbsData) (nid : Nat) :
    (deleteExtension t nid).2.issuer = t.issuer := by
  unfold deleteExtension
  split_ifs <;> rfl

lemma copyIssuerFrom_ok_issuer (t : TbsData) (c : Cert)
    (h : (copyIssuerFrom t c).1 = CStatus.TRUE) :
    (copyIssuerFrom t c).2.issuer = c.tbs.issuer := by
  unfold copyIssuerFrom at h ⊢
  split_ifs at h ⊢
  rfl

lemma buildPrecertTbs_ok_inv (ch1 : CertChain) (tbs : String)
    (h : buildPrecertTbs ch1 = Except.ok tbs) :
    (deleteExtension (ch1.certs.headD defaultCert).tbs NID_ctPoison).1 =
      CStatus.TRUE ∧
    (ch1.usesPreIssuer = CStatus.TRUE →
      tbs = (derEncodeTbs (copyIssuerFrom
        (deleteExtension (ch1.certs.headD defaultCert).tbs NID_ctPoison).2
        (ch1.certs.getD 1 defaultCert)).2).2 ∧
      (copyIssuerFrom
        (deleteExtension (ch1.certs.headD defaultCert).tbs NID_ctPoison).2
        (ch1.certs.getD 1 defaultCert)).2.issuer =
        (ch1.certs.getD 1 defaultCert).tbs.issuer) ∧
    (ch1.usesPreIssuer ≠ CStatus.TRUE →
      tbs = (derEncodeTbs
        (deleteExtension (ch1.certs.headD defaultCert).tbs NID_ctPoison).2).2 ∧
      (deleteExtension (ch1.certs.headD defaultCert).tbs NID_ctPoison).2.issuer =
        (ch1.certs.headD defaultCert).tbs.issuer) := by
  simp only [buildPrecertTbs] at h
  split_ifs at h
  · rename_i hA hB hC hD
    push_neg at hA hC
    injection h with h0
    exact ⟨hA.2, fun _ => ⟨h0.symm, copyIssuerFrom_ok_issuer _ _ hC⟩,
      fun hn => absurd hB hn⟩
  · rename_i hA hB hC hD
    push_neg at hA
    injection h with h0
    exact ⟨hA.2, fun hupi => absurd hupi hB,
      fun _ => ⟨h0.symm, deleteExtension_issuer _ _⟩⟩

/-! ### C3 -/

/-- C3: on success CheckPreCertChain computes the issuer key hash as the SPKI
digest of the certificate two above the leaf when a precert signing
certificate is used and one above the leaf otherwise, and when the chain
length at that point is below 3, respectively 2, it returns the internal
error status rather than an invalid-argument one. -/
theorem c3_issuer_key_hash_position (sig : Cert → Cert → CStatus)
    (trusted : TrustStore) (ch : CertChain) :
    (∀ ch1 kh tbs,
      CheckPreCertChain sig trusted ch = (statusOK, ch1, some (kh, tbs)) →
      (ch1.usesPreIssuer = CStatus.TRUE →
        3 ≤ ch1.certs.length ∧ kh = (ch1.certs.getD 2 defaultCert).spki.2) ∧
      (ch1.usesPreIssuer ≠ CStatus.TRUE →
        2 ≤ ch1.certs.length ∧ kh = (ch1.certs.getD 1 defaultCert).spki.2)) ∧
    (∀ st ch1, ch.loaded = true → ch.wellFormed = CStatus.TRUE →
      CheckIssuerChain sig trusted ch = (st, ch1) → st.code = ErrorCode.OK →
      ((ch1.usesPreIssuer = CStatus.TRUE → ch1.certs.length < 3 →
        CheckPreCertChain sig trusted ch =
          (⟨ErrorCode.INTERNAL, "internal error"⟩, ch1, none)) ∧
       (ch1.usesPreIssuer = CStatus.FALSE → ch1.certs.length < 2 →
        CheckPreCertChain sig trusted ch =
          (⟨ErrorCode.INTERNAL, "internal error"⟩, ch1, none)))) := by
  constructor
  · intro ch1 kh tbs hsucc
    obtain ⟨-, hkh, -⟩ := checkPreCertChain_ok_inv sig trusted ch ch1 kh tbs hsucc
    obtain ⟨hT, hF⟩ := precertKeyHash_some_inv ch1 kh hkh
    exact ⟨fun hu => ⟨(hT hu).1, (hT hu).2.2⟩, fun hu => ⟨(hF hu).1, (hF hu).2.2⟩⟩
  · intro st ch1 hl hwf hiss hok
    constructor
    · intro hupi hlen
      simp [CheckPreCertChain, precertKeyHash, hl, hwf, hiss, hok, hupi, hlen]
    · intro hupi hlen
      simp [CheckPreCertChain, precertKeyHash, hl, hwf, hiss, hok, hupi, hlen]

/-- The pre-certificate leaf of the witness chain, carrying the poison
extension in its TBS. -/
def certPreLeaf : Cert :=
  ⟨"L", true, (CStatus.TRUE, "nL"), (CStatus.TRUE, "nM"), (CStatus.TRUE, "hL"),
   CStatus.TRUE, ⟨true, [747], "isL", "bL"⟩⟩

/-- The precert signing certificate of the witness chain. -/
def certMid : Cert :=
  ⟨"M", true, (CStatus.TRUE, "nM"), (CStatus.TRUE, "rM"), (CStatus.TRUE, "hM"),
   CStatus.FALSE, ⟨true, [], "isM", "bM"⟩⟩

/-- The trusted root of the witness chain. -/
def certRootPre : Cert :=
  ⟨"R", true, (CStatus.TRUE, "rM"), (CStatus.TRUE, "rr"), (CStatus.TRUE, "hR"),
   CStatus.FALSE, ⟨true, [], "isR", "bR"⟩⟩

/-- The witness pre-certificate chain using a precert signing certificate. -/
def chainPre : CertChain :=
  ⟨true, [certPreLeaf, certMid], CStatus.TRUE, [certPreLeaf, certMid],
   CStatus.TRUE, CStatus.TRUE, CStatus.TRUE, CStatus.TRUE⟩

/-- The witness chain after trust anchor resolution appended the root. -/
def ch1Pre : CertChain :=
  {chainPre with certs := [certPreLeaf, certMid, certRootPre]}

/-- The witness trust store holding the root under its subject name. -/
def storePre : TrustStore := [("rM", certRootPre)]

/-- A signature oracle under which every pair verifies. -/
def sigAllT : Cert → Cert → CStatus := fun _ _ => CStatus.TRUE

/-- Witness for C3: the concrete run uses the digest of the certificate two
above the leaf. -/
theorem c3_witness :
    CheckPreCertChain sigAllT storePre chainPre =
      (statusOK, ch1Pre, some ("hR", "|isM|bL")) ∧
    3 ≤ ch1Pre.certs.length ∧ "hR" = (ch1Pre.certs.getD 2 defaultCert).spki.2 :=
  ⟨by decide,
   ((c3_issuer_key_hash_position sigAllT storePre chainPre).1 ch1Pre "hR"
      "|isM|bL" (by decide)).1 rfl⟩

/-! ### C4 -/

/-- C4: on success the emitted TBS is the re-encoding of the precert TBS with
the poison extension deleted, with the issuer rewritten from the certificate
one above the leaf exactly when a precert signing certificate is used; each
failure of the deletion, rewrite or re-encoding stage yields the internal
error status of the source, propagated by CheckPreCertChain. -/
theorem c4_precert_tbs_construction :
    (∀ (sig : Cert → Cert → CStatus) (trusted : TrustStore) (ch ch1 : CertChain)
       (kh tbs : String),
      CheckPreCertChain sig trusted ch = (statusOK, ch1, some (kh, tbs)) →
      (deleteExtension (ch1.certs.headD defaultCert).tbs NID_ctPoison).1 =
        CStatus.TRUE ∧
      (ch1.usesPreIssuer = CStatus.TRUE →
        tbs = (derEncodeTbs (copyIssuerFrom
          (deleteExtension (ch1.certs.headD defaultCert).tbs NID_ctPoison).2
          (ch1.certs.getD 1 defaultCert)).2).2 ∧
        (copyIssuerFrom
          (deleteExtension (ch1.certs.headD defaultCert).tbs NID_ctPoison).2
          (ch1.certs.getD 1 defaultCert)).2.issuer =
          (ch1.certs.getD 1 defaultCert).tbs.issuer) ∧
      (ch1.usesPreIssuer ≠ CStatus.TRUE →
        tbs = (derEncodeTbs
          (deleteExtension (ch1.certs.headD defaultCert).tbs NID_ctPoison).2).2 ∧
        (deleteExtension (ch1.certs.headD defaultCert).tbs NID_ctPoison).2.issuer =
          (ch1.certs.headD defaultCert).tbs.issuer)) ∧
    (∀ ch1 : CertChain,
      ((ch1.certs.headD defaultCert).tbs.loaded = false ∨
        (deleteExtension (ch1.certs.headD defaultCert).tbs NID_ctPoison).1 ≠
          CStatus.TRUE) →
      buildPrecertTbs ch1 = Except.error ⟨ErrorCode.INTERNAL, "internal error"⟩) ∧
    (∀ ch1 : CertChain,
      ¬((ch1.certs.headD defaultCert).tbs.loaded = false ∨
        (deleteExtension (ch1.certs.headD defaultCert).tbs NID_ctPoison).1 ≠
          CStatus.TRUE) →
      ch1.usesPreIssuer = CStatus.TRUE →
      (copyIssuerFrom
        (deleteExtension (ch1.certs.headD defaultCert).tbs NID_ctPoison).2
        (ch1.certs.getD 1 defaultCert)).1 ≠ CStatus.TRUE →
      buildPrecertTbs ch1 = Except.error ⟨ErrorCode.INTERNAL, "internal error"⟩) ∧
    (∀ ch1 : CertChain,
      ¬((ch1.certs.headD defaultCert).tbs.loaded = false ∨
        (deleteExtension (ch1.certs.headD defaultCert).tbs NID_ctPoison).1 ≠
          CStatus.TRUE) →
      ch1.usesPreIssuer = CStatus.TRUE →
      (copyIssuerFrom
        (deleteExtension (ch1.certs.headD defaultCert).tbs NID_ctPoison).2
        (ch1.certs.getD 1 defaultCert)).1 = CStatus.TRUE →
      (derEncodeTbs (copyIssuerFrom
        (deleteExtension (ch1.certs.headD defaultCert).tbs NID_ctPoison).2
        (ch1.certs.getD 1 defaultCert)).2).1 ≠ CStatus.TRUE →
      buildPrecertTbs ch1 =
        Except.error ⟨ErrorCode.INTERNAL, "could not DER-encode tbs certificate"⟩) ∧
    (∀ ch1 : CertChain,
      ¬((ch1.certs.headD defaultCert).tbs.loaded = false ∨
        (deleteExtension (ch1.certs.headD defaultCert).tbs NID_ctPoison).1 ≠
          CStatus.TRUE) →
      ch1.usesPreIssuer ≠ CStatus.TRUE →
      (derEncodeTbs
        (deleteExtension (ch1.certs.headD defaultCert).tbs NID_ctPoison).2).1 ≠
        CStatus.TRUE →
      buildPrecertTbs ch1 =
        Except.error ⟨ErrorCode.INTERNAL, "could not DER-encode tbs certificate"⟩) ∧
    (∀ (sig : Cert → Cert → CStatus) (trusted : TrustStore) (ch : CertChain)
       (st : UtilStatus) (ch1 : CertChain) (kh : String) (s : UtilStatus),
      ch.loaded = true → ch.wellFormed = CStatus.TRUE →
      CheckIssuerChain sig trusted ch = (st, ch1) → st.code = ErrorCode.OK →
      (ch1.usesPreIssuer = CStatus.TRUE ∨ ch1.usesPreIssuer = CStatus.FALSE) →
      precertKeyHash ch1 = some kh →
      buildPrecertTbs ch1 = Except.error s →
      CheckPreCertChain sig trusted ch = (s, ch1, none)) := by
  refine ⟨?_, ?_, ?_, ?_, ?_, ?_⟩
  · intro sig trusted ch ch1 kh tbs hsucc
    obtain ⟨-, -, hbuild⟩ := checkPreCertChain_ok_inv sig trusted ch ch1 kh tbs hsucc
    exact buildPrecertTbs_ok_inv ch1 tbs hbuild
  · intro ch1 hA
    simp only [buildPrecertTbs]
    rw [if_pos hA]
  · intro ch1 hA hupi hcopy
    simp only [buildPrecertTbs]
    rw [if_neg hA, hupi, if_pos rfl, if_pos hcopy]
  · intro ch1 hA hupi hcopy hder
    simp only [buildPrecertTbs]
    rw [if_neg hA, hupi, if_pos rfl,
      if_neg (fun hc => hc hcopy), if_pos hder]
  · intro ch1 hA hupi hder
    simp only [buildPrecertTbs]
    rw [if_neg hA, if_neg hupi, if_neg (fun hc => hc rfl)]
    dsimp only
    rw [if_pos hder]
  · intro sig trusted ch st ch1 kh s hl hwf hiss hok hupi hkh htbs
    rcases hupi with hu | hu <;>
      simp [CheckPreCertChain, hl, hwf, hiss, hok, hu, hkh, htbs]

/-- Witness for C4: the concrete run emits the re-encoded TBS with the poison
extension removed and the issuer rewritten. -/
theorem c4_witness :
    (deleteExtension (ch1Pre.certs.headD defaultCert).tbs NID_ctPoison).1 =
      CStatus.TRUE ∧
    "|isM|bL" = (derEncodeTbs (copyIssuerFrom
      (deleteExtension (ch1Pre.certs.headD defaultCert).tbs NID_ctPoison).2
      (ch1Pre.certs.getD 1 defaultCert)).2).2 :=
  ⟨(c4_precert_tbs_construction.1 sigAllT storePre chainPre ch1Pre "hR"
      "|isM|bL" (by decide)).1,
   ((c4_precert_tbs_construction.1 sigAllT storePre chainPre ch1Pre "hR"
      "|isM|bL" (by decide)).2.1 rfl).1⟩

/-! ### Helper lemmas about loading the trust store -/

lemma loadLoop_no_error_items (trusted : TrustStore) (items : List PemItem)
    (h : (loadLoop trusted items).1 = false) :
    ∀ it ∈ items, ∃ c, it = PemItem.cert c ∧
      ((IsTrusted trusted c).1 = CertVerifyResult.OK ∨
       (IsTrusted trusted c).1 = CertVerifyResult.ROOT_NOT_IN_LOCAL_STORE) := by
  induction items with
  | nil => intro it hit; simp at hit
  | cons a rest ih =>
      cases a with
      | garbage => simp [loadLoop] at h
      | cert c =>
          by_cases hc : (IsTrusted trusted c).1 ≠ CertVerifyResult.OK ∧
              (IsTrusted trusted c).1 ≠ CertVerifyResult.ROOT_NOT_IN_LOCAL_STORE
          · simp only [loadLoop] at h
            rw [if_pos hc] at h
            simp at h
          · simp only [loadLoop] at h
            rw [if_neg hc] at h
            push_neg at hc
            intro it hit
            rcases List.mem_cons.mp hit with rfl | hmem
            · refine ⟨c, rfl, ?_⟩
              by_cases ho : (IsTrusted trusted c).1 = CertVerifyResult.OK
              · exact Or.inl ho
              · exact Or.inr (hc ho)
            · exact ih h it hmem

lemma loadLoop_no_error_count (trusted : TrustStore) (items : List PemItem)
    (h : (loadLoop trusted items).1 = false) :
    (loadLoop trusted items).2.1 = items.length := by
  induction items with
  | nil => rfl
  | cons a rest ih =>
      cases a with
      | garbage => simp [loadLoop] at h
      | cert c =>
          by_cases hc : (IsTrusted trusted c).1 ≠ CertVerifyResult.OK ∧
              (IsTrusted trusted c).1 ≠ CertVerifyResult.ROOT_NOT_IN_LOCAL_STORE
          · simp only [loadLoop] at h
            rw [if_pos hc] at h
            simp at h
          · simp only [loadLoop] at h ⊢
            rw [if_neg hc] at h ⊢
            simp only [List.length_cons]
            exact congrArg (· + 1) (ih h)

lemma loadLoop_error_of_bad (trusted : TrustStore) (c : Cert)
    (back : List PemItem)
    (hbad : (IsTrusted trusted c).1 ≠ CertVerifyResult.OK ∧
      (IsTrusted trusted c).1 ≠ CertVerifyResult.ROOT_NOT_IN_LOCAL_STORE) :
    ∀ front, (∀ it ∈ front, ∃ d, it = PemItem.cert d ∧
        ((IsTrusted trusted d).1 = CertVerifyResult.OK ∨
         (IsTrusted trusted d).1 = CertVerifyResult.ROOT_NOT_IN_LOCAL_STORE)) →
      (loadLoop trusted (front ++ PemItem.cert c :: back)).1 = true := by
  intro front
  induction front with
  | nil =>
      intro _
      simp only [List.nil_append, loadLoop]
      rw [if_pos hbad]
  | cons a rest ih =>
      intro hgood
      obtain ⟨d, rfl, hd⟩ := hgood a (by simp)
      simp only [List.cons_append, loadLoop]
      rw [if_neg (by rcases hd with hd | hd <;> simp [hd])]
      exact ih (fun it hit => hgood it (by simp [hit]))

lemma loadLoop_staged_of_mem (trusted : TrustStore) (items : List PemItem)
    (c : Cert) (herr : (loadLoop trusted items).1 = false)
    (hmem : PemItem.cert c ∈ items)
    (hnok : (IsTrusted trusted c).1 ≠ CertVerifyResult.OK) :
    ((IsTrusted trusted c).2.getD "", c) ∈ (loadLoop trusted items).2.2 := by
  induction items with
  | nil => simp at hmem
  | cons a rest ih =>
      cases a with
      | garbage => simp [loadLoop] at herr
      | cert d =>
          by_cases hcd : (IsTrusted trusted d).1 ≠ CertVerifyResult.OK ∧
              (IsTrusted trusted d).1 ≠ CertVerifyResult.ROOT_NOT_IN_LOCAL_STORE
          · simp only [loadLoop] at herr
            rw [if_pos hcd] at herr
            simp at herr
          · simp only [loadLoop] at herr ⊢
            rw [if_neg hcd] at herr ⊢
            rcases List.mem_cons.mp hmem with heq | hmem2
            · injection heq with heqc
              subst heqc
              rw [if_pos hnok]
              exact List.mem_append_left _ (by simp)
            · exact List.mem_append_right _ (ih herr hmem2)

lemma isTrusted_ok_mono (trusted extra : TrustStore) (c : Cert)
    (h : (IsTrusted trusted c).1 = CertVerifyResult.OK) :
    (IsTrusted (trusted ++ extra) c).1 = CertVerifyResult.OK := by
  unfold IsTrusted at h ⊢
  rcases hsn : c.subjectName with ⟨st, n⟩
  rw [hsn] at h
  cases st with
  | TRUE =>
      dsimp only at h ⊢
      by_cases hany : (trusted.filter (fun p => p.1 == n)).any
          (fun p => isIdenticalTo c p.2) = true
      · have hext : ((trusted ++ extra).filter (fun p => p.1 == n)).any
            (fun p => isIdenticalTo c p.2) = true := by
          rw [List.filter_append, List.any_append]
          simp [hany]
        rw [if_pos hext]
      · rw [if_neg hany] at h
        exact absurd h (by simp)
  | FALSE =>
      dsimp only at h
      exact absurd h (by simp)
  | ERROR =>
      dsimp only at h
      exact absurd h (by simp)
  | UNSUPPORTED_ALGORITHM =>
      dsimp only at h
      exact absurd h (by simp)

lemma isTrusted_mem_ok (store : TrustStore) (c : Cert) (n : String)
    (hsn : c.subjectName = (CStatus.TRUE, n)) (hmem : (n, c) ∈ store) :
    (IsTrusted store c).1 = CertVerifyResult.OK := by
  unfold IsTrusted
  rw [hsn]
  dsimp only
  rw [if_pos (List.any_eq_true.mpr
    ⟨(n, c), List.mem_filter.mpr ⟨hmem, by simp⟩, by simp [isIdenticalTo]⟩)]

lemma isTrusted_rnils_name (trusted : TrustStore) (c : Cert)
    (h : (IsTrusted trusted c).1 = CertVerifyResult.ROOT_NOT_IN_LOCAL_STORE) :
    c.subjectName = (CStatus.TRUE, (IsTrusted trusted c).2.getD "") := by
  unfold IsTrusted at h ⊢
  rcases hsn : c.subjectName with ⟨st, n⟩
  rw [hsn] at h
  cases st with
  | TRUE =>
      dsimp only at h ⊢
      by_cases hany : (trusted.filter (fun p => p.1 == n)).any
          (fun p => isIdenticalTo c p.2) = true
      · rw [if_pos hany] at h
        simp at h
      · rw [if_neg hany]
        rfl
  | FALSE =>
      dsimp only at h
      simp at h
  | ERROR =>
      dsimp only at h
      simp at h
  | UNSUPPORTED_ALGORITHM =>
      dsimp only at h
      simp at h

lemma loadLoop_all_ok (store : TrustStore) (items : List PemItem)
    (hall : ∀ it ∈ items, ∃ c, it = PemItem.cert c ∧
      (IsTrusted store c).1 = CertVerifyResult.OK) :
    loadLoop store items = (false, items.length, []) := by
  induction items with
  | nil => rfl
  | cons a rest ih =>
      obtain ⟨c, rfl, hok⟩ := hall a (by simp)
      simp only [loadLoop]
      rw [if_neg (by simp [hok])]
      rw [ih (fun it hit => hall it (by simp [hit]))]
      simp [hok]

lemma load_success_parts (trusted : TrustStore) (items : List PemItem)
    (store : TrustStore)
    (h : loadTrustedCertificates trusted items = (true, store)) :
    (loadLoop trusted items).1 = false ∧ (loadLoop trusted items).2.1 ≠ 0 ∧
    store = trusted ++ (loadLoop trusted items).2.2.reverse := by
  unfold loadTrustedCertificates at h
  by_cases hcond : (loadLoop trusted items).1 = true ∨
      (loadLoop trusted items).2.1 = 0
  · rw [if_pos hcond] at h
    exact absurd h (by simp)
  · rw [if_neg hcond] at h
    push_neg at hcond
    injection h with h1 h2
    have herr : (loadLoop trusted items).1 = false := by
      cases hb : (loadLoop trusted items).1
      · rfl
      · exact absurd hb hcond.1
    exact ⟨herr, hcond.2, h2.symm⟩

lemma load_reload (trusted : TrustStore) (items : List PemItem)
    (store : TrustStore)
    (h : loadTrustedCertificates trusted items = (true, store)) :
    loadTrustedCertificates store items = (true, store) := by
  obtain ⟨herr, hcnt, hS⟩ := load_success_parts trusted items store h
  have hitems := loadLoop_no_error_items trusted items herr
  have hall : ∀ it ∈ items, ∃ c, it = PemItem.cert c ∧
      (IsTrusted store c).1 = CertVerifyResult.OK := by
    intro it hit
    obtain ⟨c, rfl, hcase⟩ := hitems it hit
    refine ⟨c, rfl, ?_⟩
    rcases hcase with hok | hrn
    · rw [hS]
      exact isTrusted_ok_mono trusted _ c hok
    · have hstaged := loadLoop_staged_of_mem trusted items c herr hit
        (by simp [hrn])
      have hname := isTrusted_rnils_name trusted c hrn
      apply isTrusted_mem_ok store c ((IsTrusted trusted c).2.getD "") hname
      rw [hS]
      exact List.mem_append_right _ (List.mem_reverse.mpr hstaged)
  have hne : items ≠ [] := by
    intro he
    subst he
    exact hcnt rfl
  have hloop := loadLoop_all_ok store items hall
  unfold loadTrustedCertificates
  rw [hloop]
  rw [if_neg (by simp [hne])]
  simp

/-! ### C2 -/

/-- C2: loading trusted certificates is all-or-nothing: any failure leaves the
store exactly as it was; a certificate classifying as neither OK nor
ROOT_NOT_IN_LOCAL_STORE, reached after well-classified certificates, rejects
the batch, as does a source with no parseable certificate; on success every
staged entry is inserted, and re-loading the identical source inserts nothing
while still succeeding. -/
theorem c2_load_all_or_nothing (trusted : TrustStore) (items : List PemItem) :
    ((loadTrustedCertificates trusted items).1 = false →
      (loadTrustedCertificates trusted items).2 = trusted) ∧
    (∀ front c back, items = front ++ PemItem.cert c :: back →
      (∀ it ∈ front, ∃ d, it = PemItem.cert d ∧
        ((IsTrusted trusted d).1 = CertVerifyResult.OK ∨
         (IsTrusted trusted d).1 = CertVerifyResult.ROOT_NOT_IN_LOCAL_STORE)) →
      (IsTrusted trusted c).1 ≠ CertVerifyResult.OK →
      (IsTrusted trusted c).1 ≠ CertVerifyResult.ROOT_NOT_IN_LOCAL_STORE →
      loadTrustedCertificates trusted items = (false, trusted)) ∧
    (items = [] → loadTrustedCertificates trusted items = (false, trusted)) ∧
    (∀ rest, items = PemItem.garbage :: rest →
      loadTrustedCertificates trusted items = (false, trusted)) ∧
    (∀ store, loadTrustedCertificates trusted items = (true, store) →
      store = trusted ++ (loadLoop trusted items).2.2.reverse ∧
      (∀ p ∈ (loadLoop trusted items).2.2, p ∈ store) ∧
      loadTrustedCertificates store items = (true, store)) := by
  refine ⟨?_, ?_, ?_, ?_, ?_⟩
  · intro hfail
    unfold loadTrustedCertificates at hfail ⊢
    by_cases hcond : (loadLoop trusted items).1 = true ∨
        (loadLoop trusted items).2.1 = 0
    · rw [if_pos hcond]
    · rw [if_neg hcond] at hfail
      simp at hfail
  · intro front c back hitems hgood hno1 hno2
    have herr : (loadLoop trusted items).1 = true := by
      rw [hitems]
      exact loadLoop_error_of_bad trusted c back ⟨hno1, hno2⟩ front hgood
    unfold loadTrustedCertificates
    rw [if_pos (Or.inl herr)]
  · intro he
    subst he
    rfl
  · intro rest he
    subst he
    rfl
  · intro store hsucc
    obtain ⟨herr, hcnt, hS⟩ := load_success_parts trusted items store hsucc
    refine ⟨hS, ?_, load_reload trusted items store hsucc⟩
    intro p hp
    rw [hS]
    exact List.mem_append_right _ (List.mem_reverse.mpr hp)

/-- A certificate not yet in the empty store, with computable names. -/
def certDup : Cert :=
  ⟨"D", true, (CStatus.TRUE, "nD"), (CStatus.TRUE, "iD"), (CStatus.TRUE, "hD"),
   CStatus.FALSE, ⟨true, [], "isD", "bD"⟩⟩

/-- A certificate whose subject name computation fails, classified
INTERNAL_ERROR by IsTrusted. -/
def certBadName : Cert :=
  ⟨"B", true, (CStatus.ERROR, ""), (CStatus.TRUE, "iB"), (CStatus.TRUE, "hB"),
   CStatus.FALSE, ⟨true, [], "isB", "bB"⟩⟩

/-- Witness for C2: a batch holding one good certificate and one failing
classification is rejected whole, leaving the empty store unchanged. -/
theorem c2_witness :
    loadTrustedCertificates [] [PemItem.cert certDup, PemItem.cert certBadName] =
      (false, []) :=
  (c2_load_all_or_nothing [] [PemItem.cert certDup, PemItem.cert certBadName]).2.1
    [PemItem.cert certDup] certBadName [] rfl
    (by
      intro it hit
      rw [List.mem_singleton] at hit
      subst hit
      exact ⟨certDup, rfl, Or.inr (by decide)⟩)
    (by decide) (by decide)

/-! ### C10 -/

lemma loadLoop_staged_count (trusted : TrustStore) (items : List PemItem)
    (c : Cert)
    (hrn : (IsTrusted trusted c).1 = CertVerifyResult.ROOT_NOT_IN_LOCAL_STORE)
    (herr : (loadLoop trusted items).1 = false) :
    ((loadLoop trusted items).2.2.map (fun p => p.2)).count c =
      items.count (PemItem.cert c) := by
  induction items with
  | nil => rfl
  | cons a rest ih =>
      cases a with
      | garbage => simp [loadLoop] at herr
      | cert d =>
          by_cases hcd : (IsTrusted trusted d).1 ≠ CertVerifyResult.OK ∧
              (IsTrusted trusted d).1 ≠ CertVerifyResult.ROOT_NOT_IN_LOCAL_STORE
          · simp only [loadLoop] at herr
            rw [if_pos hcd] at herr
            simp at herr
          · simp only [loadLoop] at herr ⊢
            rw [if_neg hcd] at herr ⊢
            have hrest := ih herr
            by_cases hdc : d = c
            · subst hdc
              rw [if_pos (by simp [hrn])]
              simp [List.count_cons, hrest]
            · by_cases hno : (IsTrusted trusted d).1 ≠ CertVerifyResult.OK
              · rw [if_pos hno]
                simp [List.count_cons, hrest, hdc]
              · rw [if_neg hno]
                simp [List.count_cons, hrest, hdc]

/-- C10: duplicate skipping in a load compares only against the store as it
was before the call: every occurrence of a not-yet-trusted certificate in the
source is staged and, on success, inserted, so the store gains one entry per
occurrence. -/
theorem c10_duplicates_within_batch (trusted : TrustStore)
    (items : List PemItem) (c : Cert) (store : TrustStore)
    (hrn : (IsTrusted trusted c).1 = CertVerifyResult.ROOT_NOT_IN_LOCAL_STORE)
    (hsucc : loadTrustedCertificates trusted items = (true, store)) :
    (store.map (fun p => p.2)).count c =
      (trusted.map (fun p => p.2)).count c + items.count (PemItem.cert c) := by
  obtain ⟨herr, -, hS⟩ := load_success_parts trusted items store hsucc
  rw [hS, List.map_append, List.count_append, List.map_reverse,
    List.count_reverse, loadLoop_staged_count trusted items c hrn herr]

/-- Witness for C10: loading the same fresh certificate twice inserts it
twice. -/
theorem c10_witness :
    (IsTrusted [] certDup).1 = CertVerifyResult.ROOT_NOT_IN_LOCAL_STORE ∧
    loadTrustedCertificates [] [PemItem.cert certDup, PemItem.cert certDup] =
      (true, [("nD", certDup), ("nD", certDup)]) ∧
    (([("nD", certDup), ("nD", certDup)] : TrustStore).map
      (fun p => p.2)).count certDup = 2 := by
  refine ⟨by decide, by decide, ?_⟩
  have h := c10_duplicates_within_batch []
    [PemItem.cert certDup, PemItem.cert certDup] certDup
    [("nD", certDup), ("nD", certDup)] (by decide) (by decide)
  exact h.trans (by decide)
